import Mathlib

/-!
Verification development for the whisper-based transcription CLI
(`use_whisper.py`).  The Python functions are shallowly embedded:
seconds values become exact rationals, the external `whisper` library
becomes an abstract structure of pure functions, and the filesystem
becomes explicit state records.
-/

set_option linter.unusedVariables false

namespace UseWhisper

/-! ### Python numeric primitives -/

/-- Python `int(q)`: truncation toward zero. -/
def pyIntTrunc (q : ℚ) : Int :=
  if 0 ≤ q then Rat.floor q else -Rat.floor (-q)

/-- Python `a % b` on floats (sign follows the divisor): `a - b * floor (a / b)`. -/
def pyMod (a b : ℚ) : ℚ := a - b * (Rat.floor (a / b) : ℚ)

/-- Python `a // b` on floats: `floor (a / b)` as a float. -/
def pyFloorDiv (a b : ℚ) : ℚ := (Rat.floor (a / b) : ℚ)

/-- Fuel-driven core of `natDigits`; the fuel always suffices because a number
shrinks strictly under division by ten. -/
def natDigitsGo : Nat → Nat → List Char
  | 0, _ => []
  | fuel + 1, n =>
    if n < 10 then [Char.ofNat (48 + n)]
    else natDigitsGo fuel (n / 10) ++ [Char.ofNat (48 + n % 10)]

/-- Decimal digit characters of a natural number, most significant first. -/
def natDigits (n : Nat) : List Char := natDigitsGo (n + 1) n

/-- Python `f"{n:0w}"`: decimal rendering of an integer, zero-padded after the
sign so the whole string has at least `width` characters. -/
def zfill (width : Nat) (n : Int) : String :=
  let digits := natDigits n.natAbs
  let sign : List Char := if n < 0 then ['-'] else []
  let pad := width - (digits.length + sign.length)
  String.mk (sign ++ List.replicate pad '0' ++ digits)

/-! ### `format_time` (src/use_whisper.py lines 61-69) -/

/-- Embedding of `format_time`: seconds (as an exact rational) to
`HH:MM:SS.mmm`. -/
def format_time (seconds : ℚ) : String :=
  let milliseconds : Int := pyIntTrunc ((seconds - (pyIntTrunc seconds : ℚ)) * 1000)
  let hours : Int := pyIntTrunc (pyFloorDiv seconds 3600)
  let minutes : Int := pyIntTrunc (pyFloorDiv (pyMod seconds 3600) 60)
  let secs : Int := pyIntTrunc (pyMod seconds 60)
  zfill 2 hours ++ ":" ++ zfill 2 minutes ++ ":" ++ zfill 2 secs ++ "." ++ zfill 3 milliseconds

/-! ### Data model: words, segments, results (spec §3, shapes used by the code) -/

/-- One recognized word with its time bounds (seconds as exact rationals). -/
structure Word where
  start : ℚ
  end_ : ℚ
  word : String
deriving DecidableEq

/-- One transcription segment as produced by the model library. -/
structure Segment where
  start : ℚ
  end_ : ℚ
  text : String
  words : List Word
deriving DecidableEq

/-- The transcription result dictionary returned by `model.transcribe`. -/
structure TranscriptionResult where
  text : String
  segments : List Segment
  language : String
deriving DecidableEq

/-! ### `print_word_timestamps` (src/use_whisper.py lines 71-85)

The Python loop prints one line per segment with a non-empty word list; the
embedding returns the printed lines in order. -/

/-- The loop body of `print_word_timestamps` over the remaining segments. -/
def printWordTimestampsGo : List Segment → List String
  | [] => []
  | seg :: rest =>
    match seg.words with
    | [] => printWordTimestampsGo rest
    | w :: ws =>
      (format_time w.start ++ " --> " ++ format_time (ws.getLastD w).end_ ++
        "\n [segment]: " ++ seg.text) :: printWordTimestampsGo rest

/-- Embedding of `print_word_timestamps`: the lines printed, in order. -/
def print_word_timestamps (full_result : TranscriptionResult) : List String :=
  printWordTimestampsGo full_result.segments

/-- Spec-side description of a segment's output line: display times come from
the first word's `start` and the last word's `end`, not the segment's own
bounds.  (Defaults are irrelevant: it is only applied to segments with a
non-empty word list.) -/
def specSegmentLine (seg : Segment) : String :=
  format_time ((seg.words.headD ⟨0, 0, ""⟩).start) ++ " --> " ++
    format_time ((seg.words.getLastD ⟨0, 0, ""⟩).end_) ++ "\n [segment]: " ++ seg.text

/-! ### Input resolution (src/use_whisper.py lines 131-151) -/

/-- Abstract read-only filesystem view used by `main`'s input resolution:
`os.path.exists` and `os.listdir`. -/
structure FS where
  pathExists : String → Bool
  listdir : String → List String

/-- The three early-exit errors of input resolution (each is a printed
message followed by `return`). -/
inductive ResolveError where
  | folderNotFound : String → ResolveError
  | noAudioFiles : String → ResolveError
  | fileNotFound : String → ResolveError
deriving DecidableEq

/-- Outcome of input resolution: an early-exit error, an auto-selected file
(whose path is printed), or the explicitly given file used unchanged. -/
inductive Resolution where
  | err : ResolveError → Resolution
  | auto : String → Resolution
  | given : String → Resolution
deriving DecidableEq

/-- Embedding of line 132: `target_dir = args.folder if args.folder else
"./target"` (an empty folder string is falsy in Python). -/
def targetDirOf : Option String → String
  | none => "./target"
  | some s => if s = "" then "./target" else s

/-- Python `str.lower()` (character-wise; agrees with Python on ASCII names). -/
def pyLower (s : String) : String := String.mk (s.data.map Char.toLower)

/-- Python `str.endswith(suffix)`. -/
def pyEndsWith (s suffix : String) : Bool := suffix.data.isSuffixOf s.data

/-- Python `str.startswith(pre)`. -/
def pyStartsWith (s pre : String) : Bool := pre.data.isPrefixOf s.data

/-- Embedding of the filter on line 140:
`f.lower().endswith((".wav", ".mp3", ".flac", ".m4a"))`. -/
def isAudioFile (f : String) : Bool :=
  [".wav", ".mp3", ".flac", ".m4a"].any (fun ext => pyEndsWith (pyLower f) ext)

/-- Embedding of `os.path.join` for POSIX paths, as used on line 146. -/
def pathJoin (a b : String) : String :=
  if pyStartsWith b "/" then b
  else if a = "" ∨ pyEndsWith a "/" then a ++ b
  else a ++ "/" ++ b

/-- Embedding of `main`'s input resolution (lines 131-151): decide which
audio file is transcribed, or which error message ends the run early. -/
def resolveAudioFile (fs : FS) (audio_file folder : Option String) : Resolution :=
  let target_dir := targetDirOf folder
  match audio_file with
  | none =>
    if fs.pathExists target_dir then
      match (fs.listdir target_dir).filter isAudioFile with
      | [] => .err (.noAudioFiles target_dir)
      | f :: _ => .auto (pathJoin target_dir f)
    else .err (.folderNotFound target_dir)
  | some f =>
    if fs.pathExists f then .given f
    else .err (.fileNotFound f)

/-- The audio path `main` passes to `transcribe_audio` (line 154), if the run
gets that far; `none` when resolution exited early. -/
def mainTranscribeCall (fs : FS) (audio_file folder : Option String) : Option String :=
  match resolveAudioFile fs audio_file folder with
  | .err _ => none
  | .auto f => some f
  | .given f => some f

/-- `true` exactly when a resolution outcome is one of the two folder-scan
errors (`FolderNotFound` / `NoAudioFiles`). -/
def isFolderScanError : Resolution → Bool
  | .err (.folderNotFound _) => true
  | .err (.noAudioFiles _) => true
  | _ => false

/-! ### `save_transcription` (src/use_whisper.py lines 90-117) -/

/-- Writable filesystem view used by `save_transcription`: path existence
(`os.path.exists`) and file contents. -/
structure WFS where
  pathExists : String → Bool
  content : String → Option String

/-- Effect of `os.makedirs(d)`: afterwards the path exists. -/
def wfsMkdir (fs : WFS) (d : String) : WFS :=
  { pathExists := fun p => if p = d then true else fs.pathExists p
    content := fs.content }

/-- Effect of `open(p, "w")` + `f.write(t)`: the file now holds exactly `t`
(overwriting any previous content). -/
def wfsWrite (fs : WFS) (p t : String) : WFS :=
  { pathExists := fun q => if q = p then true else fs.pathExists q
    content := fun q => if q = p then some t else fs.content q }

/-- Embedding of `os.path.basename` for POSIX paths: the part after the last
slash (everything seen so far is dropped whenever a `/` is read). -/
def basename (p : String) : String :=
  String.mk (p.data.foldl (fun acc c => if c = '/' then [] else acc ++ [c]) [])

/-- Last index at which character `c` occurs in `cs`, or `-1` (this mirrors
Python's `str.rfind`). -/
def lastIdxOf (cs : List Char) (c : Char) : Int :=
  (cs.enum.filter (fun q => q.2 == c)).foldl (fun _ q => (q.1 : Int)) (-1)

/-- Embedding of `os.path.splitext(p)[0]`: drop the extension at the last
dot, unless every character between the last slash and that dot is itself a
dot (so dotfiles like `.bashrc` keep their name). -/
def splitextRoot (p : String) : String :=
  let cs := p.data
  let sepIdx := lastIdxOf cs '/'
  let dotIdx := lastIdxOf cs '.'
  if sepIdx < dotIdx then
    if cs.enum.any (fun q =>
        decide (sepIdx < (q.1 : Int)) && decide ((q.1 : Int) < dotIdx) && (q.2 != '.')) then
      String.mk (cs.take dotIdx.toNat)
    else p
  else p

/-- Embedding of `save_transcription`: returns the filesystem after the call
together with the function's return value (`output_file`).  A `some ""`
argument mirrors passing an empty output path, which Python treats as falsy
at the `if output_file:` check. -/
def save_transcription (result : TranscriptionResult)
    (output_file audio_path : Option String) (fs : WFS) : WFS × Option String :=
  let result_dir := "result"
  let fs1 := if fs.pathExists result_dir then fs else wfsMkdir fs result_dir
  let output_file1 : Option String :=
    match output_file, audio_path with
    | none, some a => some (result_dir ++ "/" ++ splitextRoot (basename a) ++ ".txt")
    | _, _ => output_file
  match output_file1 with
  | some o => if o = "" then (fs1, output_file1) else (wfsWrite fs1 o result.text, output_file1)
  | none => (fs1, none)

/-! ### `transcribe_audio` (src/use_whisper.py lines 6-59)

Every call into the `whisper` package is a field of an abstract structure of
pure functions; `transcribe_audio` below threads data between them exactly as
the Python body does. -/

/-- Abstract interface of the external `whisper` library (spec §6: the fixed
library contract), over abstract types for models, waveforms, spectrograms
and low-level decode output. -/
structure WhisperAPI where
  Model : Type
  Audio : Type
  Mel : Type
  DecodeResult : Type
  load_model : String → Model
  load_audio : String → Audio
  pad_or_trim : Audio → Audio
  n_mels : Model → Nat
  device : Model → String
  log_mel_spectrogram : Audio → Nat → Mel
  toDevice : Mel → String → Mel
  detect_language : Model → Mel → List (String × ℚ)
  decode : Model → Mel → String → Bool → DecodeResult
  transcribe : Model → String → String → Bool → TranscriptionResult

/-- Python `max(probs, key=probs.get)` over the language-probability mapping:
the first key attaining the maximal value (`max` only replaces its candidate
on a strictly greater value). -/
def pyArgmax (probs : List (String × ℚ)) : String :=
  match probs with
  | [] => ""
  | p :: rest => (rest.foldl (fun acc q => if acc.2 < q.2 then q else acc) p).1

/-- Embedding of `transcribe_audio` (lines 6-59).  The `verbose` prints and
timing reads have no bearing on the returned dictionary and are not
modeled; the returned value is the `full_result` of line 59. -/
def transcribe_audio (api : WhisperAPI) (audio_path : String)
    (model_name : String) (verbose : Bool) (word_timestamps : Bool) :
    TranscriptionResult :=
  let model := api.load_model model_name
  let audio := api.load_audio audio_path
  let audio := api.pad_or_trim audio
  let mel := api.toDevice (api.log_mel_spectrogram audio (api.n_mels model)) (api.device model)
  let probs := api.detect_language model mel
  let detected_lang := pyArgmax probs
  let _ := api.decode model mel detected_lang false
  let full_result := api.transcribe model audio_path detected_lang true
  full_result

/-- The spec's proposed variant of `transcribe_audio` with the diagnostic
decode pass (lines 44-46) omitted entirely; everything else is unchanged. -/
def transcribe_audio_noDiagDecode (api : WhisperAPI) (audio_path : String)
    (model_name : String) (verbose : Bool) (word_timestamps : Bool) :
    TranscriptionResult :=
  let model := api.load_model model_name
  let audio := api.load_audio audio_path
  let audio := api.pad_or_trim audio
  let mel := api.toDevice (api.log_mel_spectrogram audio (api.n_mels model)) (api.device model)
  let probs := api.detect_language model mel
  let detected_lang := pyArgmax probs
  let full_result := api.transcribe model audio_path detected_lang true
  full_result

/-! ### Concrete fixtures used by witness theorems -/

/-- A small filesystem fixture: only `./target` exists, and it lists one
non-audio entry followed by two audio entries (one upper-case). -/
def fsFixture : FS :=
  { pathExists := fun p => p == "./target"
    listdir := fun _ => ["notes.txt", "B.WAV", "a.mp3"] }

/-! ### Helper lemmas -/

/-- The loop of `print_word_timestamps` keeps exactly the segments with a
non-empty word list, each contributing its spec-side line. -/
theorem printWordTimestampsGo_eq (segs : List Segment) :
    printWordTimestampsGo segs =
      (segs.filter (fun seg => !seg.words.isEmpty)).map specSegmentLine := by
  induction segs with
  | nil => rfl
  | cons seg rest ih =>
    cases hw : seg.words with
    | nil =>
      simp [printWordTimestampsGo, hw, List.filter_cons, List.isEmpty, ih]
    | cons w ws =>
      simp only [printWordTimestampsGo, hw, ih]
      have hfilter : List.filter (fun seg => !seg.words.isEmpty) (seg :: rest) =
          seg :: List.filter (fun seg => !seg.words.isEmpty) rest := by
        simp [List.filter_cons, hw]
      have hline : specSegmentLine seg = format_time w.start ++ " --> " ++
          format_time (ws.getLastD w).end_ ++ "\n [segment]: " ++ seg.text := by
        simp only [specSegmentLine, hw, List.headD_cons, List.getLastD_cons]
      rw [hfilter, List.map_cons, hline]

/-- Claim C1: `format_time` produces zero-padded `HH:MM:SS.mmm` strings and
truncates fractional milliseconds instead of rounding:
`format_time 0 = "00:00:00.000"`, `format_time 3661.25 = "01:01:01.250"`,
and `format_time 59.999 = "00:00:59.999"` (the inputs are the exact
rationals `3661.25 = 366125/100` and `59.999 = 59999/1000`). -/
theorem claim_C1_format_time_examples :
    format_time 0 = "00:00:00.000" ∧
    format_time (mkRat 366125 100) = "01:01:01.250" ∧
    format_time (mkRat 59999 1000) = "00:00:59.999" := by
  refine ⟨?_, ?_, ?_⟩ <;>
    · simp only [format_time, pyIntTrunc, pyMod, pyFloorDiv, Rat.div_def, Rat.inv_def,
        Rat.mul_def, Rat.sub_def']
      decide

/-- Claim C2: `print_word_timestamps` walks the segments in order; every
segment with a non-empty word list prints exactly one line
`<start> --> <end>\n [segment]: <text>` whose display times come from the
first word's start and the last word's end, and every segment with an empty
word list prints nothing. -/
theorem claim_C2_print_word_timestamps (r : TranscriptionResult) :
    print_word_timestamps r =
      (r.segments.filter (fun seg => !seg.words.isEmpty)).map specSegmentLine :=
  printWordTimestampsGo_eq r.segments

/-- Claim C7: the diagnostic `whisper.decode` pass has no observable effect
on the returned result: `transcribe_audio` agrees with the variant that
omits the decode call, for every library instantiation and every input. -/
theorem claim_C7_diag_decode_no_effect (api : WhisperAPI) (audio_path : String)
    (model_name : String) (verbose : Bool) (wts : Bool) :
    transcribe_audio api audio_path model_name verbose wts =
      transcribe_audio_noDiagDecode api audio_path model_name verbose wts := rfl

/-- Claim C9: the `word_timestamps` parameter of `transcribe_audio` is
ignored — two runs differing only in it return the same result, because
`model.transcribe` is always invoked with `word_timestamps=True`. -/
theorem claim_C9_word_timestamps_ignored (api : WhisperAPI) (audio_path : String)
    (model_name : String) (verbose : Bool) (wt1 wt2 : Bool) :
    transcribe_audio api audio_path model_name verbose wt1 =
      transcribe_audio api audio_path model_name verbose wt2 := rfl

/-- Claim C10: with an explicit audio file the folder argument is never
consulted: resolution is identical for any two folder values, and it can
never be a `FolderNotFound` or `NoAudioFiles` failure. -/
theorem claim_C10_folder_not_consulted (fs : FS) (p : String)
    (folder1 folder2 : Option String) :
    resolveAudioFile fs (some p) folder1 = resolveAudioFile fs (some p) folder2 ∧
    isFolderScanError (resolveAudioFile fs (some p) folder1) = false := by
  unfold resolveAudioFile
  cases h : fs.pathExists p <;> simp [h, isFolderScanError]

/-- Claim C4: with no explicit audio file argument, resolution uses the
folder argument (default `./target`); a missing folder gives
`FolderNotFound`, an empty case-insensitive `.wav/.mp3/.flac/.m4a` filter
gives `NoAudioFiles`, and otherwise the first filtered entry in listing
order is auto-selected (the `auto` outcome is the printed selection). -/
theorem claim_C4_folder_resolution (fs : FS) (folder : Option String) :
    (fs.pathExists (targetDirOf folder) = false →
      resolveAudioFile fs none folder = .err (.folderNotFound (targetDirOf folder))) ∧
    (fs.pathExists (targetDirOf folder) = true →
      (fs.listdir (targetDirOf folder)).filter isAudioFile = [] →
      resolveAudioFile fs none folder = .err (.noAudioFiles (targetDirOf folder))) ∧
    (∀ f rest, fs.pathExists (targetDirOf folder) = true →
      (fs.listdir (targetDirOf folder)).filter isAudioFile = f :: rest →
      resolveAudioFile fs none folder = .auto (pathJoin (targetDirOf folder) f)) := by
  refine ⟨fun h => ?_, fun h hf => ?_, fun f rest h hf => ?_⟩
  · simp [resolveAudioFile, h]
  · simp [resolveAudioFile, h, hf]
  · simp [resolveAudioFile, h, hf]

/-- Witness for claim C4: on the fixture filesystem the filter keeps
`B.WAV` (case-insensitively) and `a.mp3`, and the first one is
auto-selected as `./target/B.WAV`. -/
theorem claim_C4_folder_resolution_witness :
    fsFixture.pathExists (targetDirOf none) = true ∧
    (fsFixture.listdir (targetDirOf none)).filter isAudioFile = ["B.WAV", "a.mp3"] ∧
    resolveAudioFile fsFixture none none = .auto "./target/B.WAV" :=
  ⟨rfl, rfl, (claim_C4_folder_resolution fsFixture none).2.2 "B.WAV" ["a.mp3"] rfl rfl⟩

/-- Claim C5: with an explicit audio path that does not exist, `main` exits
early with the `FileNotFound` message and never reaches `transcribe_audio`;
with an existing path, the path is used unchanged. -/
theorem claim_C5_explicit_file (fs : FS) (p : String) (folder : Option String) :
    (fs.pathExists p = false →
      resolveAudioFile fs (some p) folder = .err (.fileNotFound p) ∧
      mainTranscribeCall fs (some p) folder = none) ∧
    (fs.pathExists p = true →
      resolveAudioFile fs (some p) folder = .given p ∧
      mainTranscribeCall fs (some p) folder = some p) := by
  refine ⟨fun h => ?_, fun h => ?_⟩ <;>
    simp [mainTranscribeCall, resolveAudioFile, h]

/-- Witness for claim C5: `missing.wav` does not exist on the fixture
filesystem, so resolution fails with `FileNotFound` and no transcription
call is made. -/
theorem claim_C5_explicit_file_witness :
    fsFixture.pathExists "missing.wav" = false ∧
    (resolveAudioFile fsFixture (some "missing.wav") none =
        .err (.fileNotFound "missing.wav") ∧
      mainTranscribeCall fsFixture (some "missing.wav") none = none) :=
  ⟨rfl, (claim_C5_explicit_file fsFixture "missing.wav" none).1 rfl⟩

/-- The derived output path `result/<name>.txt` is never the empty string,
so Python's `if output_file:` check passes on it. -/
theorem derivedPath_ne_empty (s : String) :
    ("result/" ++ s ++ ".txt" : String) ≠ "" := by
  intro h
  have hlen := congrArg String.length h
  rw [String.length_append, String.length_append] at hlen
  have h1 : ("result/" : String).length = 7 := rfl
  have h3 : (".txt" : String).length = 4 := rfl
  have h4 : ("" : String).length = 0 := rfl
  rw [h1, h3, h4] at hlen
  omega

/-- Claim C6: `save_transcription` with no explicit output path derives
`result/<audio-basename-without-extension>.txt`, writes exactly the
result's `text` there (overwriting whatever the file held before), and in
particular `target/demo.wav` with text `hello world` yields
`result/demo.txt` containing exactly `hello world`. -/
theorem claim_C6_save_derived_path (fs : WFS) (result : TranscriptionResult)
    (a : String) :
    (save_transcription result none (some a) fs).2 =
      some ("result/" ++ splitextRoot (basename a) ++ ".txt") ∧
    (save_transcription result none (some a) fs).1.content
      ("result/" ++ splitextRoot (basename a) ++ ".txt") = some result.text ∧
    (save_transcription ⟨"hello world", [], ""⟩ none (some "target/demo.wav") fs).1.content
      "result/demo.txt" = some "hello world" := by
  refine ⟨?_, ?_, ?_⟩
  · simp [save_transcription, derivedPath_ne_empty]
  · simp [save_transcription, derivedPath_ne_empty, wfsWrite]
  · have hp : ("result/" ++ splitextRoot (basename "target/demo.wav") ++ ".txt" :
        String) = "result/demo.txt" := by decide
    simp [save_transcription, derivedPath_ne_empty, wfsWrite, hp]

/-- Claim C8: called with neither an output path nor an audio path,
`save_transcription` writes nothing and returns `None`; and after every
call, whatever the arguments, the `result` directory exists. -/
theorem claim_C8_result_dir_always_created (fs : WFS) (result : TranscriptionResult) :
    (save_transcription result none none fs).2 = none ∧
    (save_transcription result none none fs).1.content = fs.content ∧
    ∀ (out audio : Option String),
      (save_transcription result out audio fs).1.pathExists "result" = true := by
  refine ⟨?_, ?_, fun out audio => ?_⟩
  · simp [save_transcription]
  · simp only [save_transcription]
    split <;> rfl
  · simp only [save_transcription]
    have h1 : (if fs.pathExists "result" = true then fs
        else wfsMkdir fs "result").pathExists "result" = true := by
      split
      · assumption
      · simp [wfsMkdir]
    have h2 : ∀ o t, (wfsWrite (if fs.pathExists "result" = true then fs
        else wfsMkdir fs "result") o t).pathExists "result" = true := by
      intro o t
      simp only [wfsWrite]
      split <;> simp [h1]
    repeat' split
    all_goals first
      | exact h1
      | exact h2 _ _
      | simp_all [wfsMkdir, wfsWrite]

/-- Any positive fuel yields at least one digit character. -/
theorem natDigitsGo_length_pos (f n : Nat) (hf : 0 < f) :
    1 ≤ (natDigitsGo f n).length := by
  cases f with
  | zero => omega
  | succ f =>
    simp only [natDigitsGo]
    split <;> simp

/-- A number of at least ten renders to at least two digit characters. -/
theorem natDigitsGo_length_two (f n : Nat) (hn : 10 ≤ n) (hf : n < f) :
    2 ≤ (natDigitsGo f n).length := by
  cases f with
  | zero => omega
  | succ f =>
    simp only [natDigitsGo]
    rw [if_neg (by omega)]
    rw [List.length_append]
    have h1 : 1 ≤ (natDigitsGo f (n / 10)).length :=
      natDigitsGo_length_pos f (n / 10) (by omega)
    simp only [List.length_cons, List.length_nil]
    omega

/-- A number of at least one hundred renders to at least three digit
characters. -/
theorem natDigitsGo_length_three (f n : Nat) (hn : 100 ≤ n) (hf : n < f) :
    3 ≤ (natDigitsGo f n).length := by
  cases f with
  | zero => omega
  | succ f =>
    simp only [natDigitsGo]
    rw [if_neg (by omega)]
    rw [List.length_append]
    have h2 : 2 ≤ (natDigitsGo f (n / 10)).length :=
      natDigitsGo_length_two f (n / 10) (by omega) (by omega)
    simp only [List.length_cons, List.length_nil]
    omega

/-- A number of at least one hundred occupies more than two characters. -/
theorem natDigits_length_three (n : Nat) (hn : 100 ≤ n) :
    3 ≤ (natDigits n).length :=
  natDigitsGo_length_three (n + 1) n hn (Nat.lt_succ_self n)

/-- Decimal digit characters are never the colon separator. -/
theorem digitChar_ne_colon (d : Nat) (hd : d < 10) : Char.ofNat (48 + d) ≠ ':' := by
  interval_cases d <;> decide

/-- No character produced by the digit renderer is a colon, so the hours
field of `format_time` is exactly the text before the first `:`. -/
theorem mem_natDigitsGo_ne_colon (f : Nat) :
    ∀ (n : Nat), ∀ c ∈ natDigitsGo f n, c ≠ ':' := by
  induction f with
  | zero =>
    intro n c hc
    simp [natDigitsGo] at hc
  | succ f ih =>
    intro n c hc
    simp only [natDigitsGo] at hc
    by_cases h : n < 10
    · rw [if_pos h] at hc
      simp only [List.mem_singleton] at hc
      subst hc
      exact digitChar_ne_colon n h
    · rw [if_neg h] at hc
      rcases List.mem_append.1 hc with hc | hc
      · exact ih (n / 10) c hc
      · simp only [List.mem_singleton] at hc
        subst hc
        exact digitChar_ne_colon (n % 10) (Nat.mod_lt n (by omega))

/-- Batteries' executable `Rat.floor` agrees with Mathlib's `⌊⌋`. -/
theorem ratFloor_eq_floor (q : ℚ) : Rat.floor q = ⌊q⌋ := by
  rw [Rat.floor_def']
  rw [Rat.floor_def]

/-- `int()` is the identity on nonnegative integers embedded in ℚ. -/
theorem pyIntTrunc_intCast (k : Int) (hk : 0 ≤ k) : pyIntTrunc (k : ℚ) = k := by
  unfold pyIntTrunc
  rw [if_pos (by exact_mod_cast hk)]
  rw [ratFloor_eq_floor, Int.floor_intCast]

/-- `format_time` is its hours field, a colon, and the rest. -/
theorem format_time_decomp (s : ℚ) :
    format_time s = zfill 2 (pyIntTrunc (pyFloorDiv s 3600)) ++ ":" ++
      (zfill 2 (pyIntTrunc (pyFloorDiv (pyMod s 3600) 60)) ++ ":" ++
        zfill 2 (pyIntTrunc (pyMod s 60)) ++ "." ++
        zfill 3 (pyIntTrunc ((s - (pyIntTrunc s : ℚ)) * 1000))) := by
  simp only [format_time, String.append_assoc]

/-- Claim C3: the hours field of `format_time` is `⌊s / 3600⌋` rendered in
full decimal — no modulo and no upper bound — so any input of at least
360000 seconds (100 hours) makes it at least 100 and it occupies more than
two characters; the colon-free digit text before the first `:` is exactly
that unbounded value. -/
theorem claim_C3_hours_unbounded (s : ℚ) (hs : (360000 : ℚ) ≤ s) :
    ∃ rest : String,
      format_time s = String.mk (natDigits ⌊s / 3600⌋.natAbs) ++ ":" ++ rest ∧
      (100 : Int) ≤ ⌊s / 3600⌋ ∧
      2 < (natDigits ⌊s / 3600⌋.natAbs).length ∧
      ∀ c ∈ natDigits ⌊s / 3600⌋.natAbs, c ≠ ':' := by
  have hq : (100 : ℚ) ≤ s / 3600 := by
    rw [le_div_iff₀ (by norm_num : (0 : ℚ) < 3600)]
    linarith
  have hfloor : (100 : Int) ≤ ⌊s / 3600⌋ := by
    rw [Int.le_floor]
    exact_mod_cast hq
  have hnatAbs : 100 ≤ ⌊s / 3600⌋.natAbs := by omega
  have hlen : 3 ≤ (natDigits ⌊s / 3600⌋.natAbs).length :=
    natDigits_length_three _ hnatAbs
  have hhours : pyIntTrunc (pyFloorDiv s 3600) = ⌊s / 3600⌋ := by
    unfold pyFloorDiv
    rw [ratFloor_eq_floor]
    exact pyIntTrunc_intCast _ (by omega)
  have hzfill : zfill 2 ⌊s / 3600⌋ = String.mk (natDigits ⌊s / 3600⌋.natAbs) := by
    simp only [zfill]
    rw [if_neg (by omega : ¬⌊s / 3600⌋ < 0)]
    simp only [List.length_nil, List.nil_append, Nat.add_zero]
    rw [Nat.sub_eq_zero_of_le (by omega)]
    rw [List.replicate_zero, List.nil_append]
  refine ⟨zfill 2 (pyIntTrunc (pyFloorDiv (pyMod s 3600) 60)) ++ ":" ++
      zfill 2 (pyIntTrunc (pyMod s 60)) ++ "." ++
      zfill 3 (pyIntTrunc ((s - (pyIntTrunc s : ℚ)) * 1000)), ?_, hfloor, by omega, ?_⟩
  · rw [format_time_decomp, hhours, hzfill]
  · intro c hc
    exact mem_natDigitsGo_ne_colon _ _ c hc

/-- Witness for claim C3: the hypothesis holds at exactly 100 hours
(360000 seconds), where the hours field reads `100`. -/
theorem claim_C3_hours_unbounded_witness :
    (360000 : ℚ) ≤ 360000 ∧
    ∃ rest : String,
      format_time 360000 = String.mk (natDigits ⌊(360000 : ℚ) / 3600⌋.natAbs) ++ ":" ++ rest ∧
      (100 : Int) ≤ ⌊(360000 : ℚ) / 3600⌋ ∧
      2 < (natDigits ⌊(360000 : ℚ) / 3600⌋.natAbs).length ∧
      ∀ c ∈ natDigits ⌊(360000 : ℚ) / 3600⌋.natAbs, c ≠ ':' :=
  ⟨le_refl _, claim_C3_hours_unbounded 360000 (le_refl _)⟩

end UseWhisper
